import Mathlib

/-!
Verification of the sighting reconciler in `streamlit_app.py` (Port
Orchard Backyard Birds).  DataFrame rows are modelled as structures; a
pandas `NaN` cell is `Option.none`, a present cell is `some`.  The three
mutable fields are the strings the app stores: `"Yes"`/`""` for the
`Seen?` column, ISO date text for `Date first seen`, free text for
`Notes`.
-/

/-- One row of the reference CSV (`csv_df`) and, equally, one row of the
merged unified view returned by `merge_supabase_state`: the `Species`
key, the three mutable cells (`none` is a pandas `NaN`), and the
descriptive metadata columns, opaque to the reconciler and passed
through untouched. -/
structure Row where
  species : String
  seenQ : Option String
  dateFirstSeen : Option String
  notes : Option String
  meta : String
  deriving DecidableEq

/-- One row of the Supabase overlay frame `state_df` (columns `species`,
`seen`, `first_seen_date`, `notes`).  A `none` field is a `NaN` cell,
as arises from an overlay record missing that sub-field. -/
structure StateEntry where
  species : String
  seen : Option Bool
  first_seen_date : Option String
  notes : Option String
  deriving DecidableEq

/-- Line 211: `state.get("seen", False).apply(lambda x: "Yes" if bool(x) else "")`.
Python `bool(nan)` is `True` (NaN is a non-zero float), so a `NaN` cell
in the `seen` column maps to `"Yes"`, not to `""`. -/
def normSeen : Option Bool → String
  | some b => if b then "Yes" else ""
  | none => "Yes"

/-- Column-wise override of lines 218-223: the overlay cell wins when it
is non-NaN and non-empty (`merged[sb_col].notna() & (merged[sb_col] != "")`),
otherwise the CSV cell is kept; the trailing `fillna("")` of line 223
turns a kept `NaN` into `""`. -/
def pick : Option String → Option String → String
  | some v, c => if v = "" then c.getD "" else v
  | none, c => c.getD ""

/-- The merged row for a reference row `b` joined with overlay entry `s`
(lines 217-223 for a matched `Species` key). -/
def mergeRow (b : Row) (s : StateEntry) : Row :=
  { species := b.species
  , seenQ := some (pick (some (normSeen s.seen)) b.seenQ)
  , dateFirstSeen := some (pick s.first_seen_date b.dateFirstSeen)
  , notes := some (pick s.notes b.notes)
  , meta := b.meta }

/-- The merged row for a reference row with no overlay match: the `_sb`
columns of the left join are `NaN`, so every `where` keeps the CSV cell,
and the final `fillna("")` replaces a `NaN` CSV cell by `""`. -/
def fillRow (b : Row) : Row :=
  { b with
    seenQ := some (b.seenQ.getD "")
    dateFirstSeen := some (b.dateFirstSeen.getD "")
    notes := some (b.notes.getD "") }

/-- Pandas `base.merge(state, on="Species", how="left")` of line 217:
every base row appears in base order, paired with each overlay row of
equal `Species` key in overlay order, or alone when there is no match. -/
def leftJoin (state : List StateEntry) : List Row → List Row
  | [] => []
  | b :: bs =>
    (let ms := state.filter fun s => s.species == b.species
     if ms.isEmpty then [fillRow b] else ms.map (mergeRow b)) ++ leftJoin state bs

/-- Lines 203-223, `merge_supabase_state(csv_df, state_df)`: the empty
overlay short-circuits to `csv_df.copy()` (line 204-205, no column fill,
no `fillna`); otherwise the left join with column-wise override. -/
def merge_supabase_state (csv_df : List Row) (state_df : List StateEntry) : List Row :=
  if state_df.isEmpty then csv_df else leftJoin state_df csv_df

/-- First overlay entry carrying the given `Species` key. -/
def lookupEntry (x : String) (state : List StateEntry) : Option StateEntry :=
  state.find? fun s => s.species == x

/-- Row-wise description of the merge for an overlay with no duplicate
`species` keys. -/
def mergeOne (state : List StateEntry) (b : Row) : Row :=
  match lookupEntry b.species state with
  | some s => mergeRow b s
  | none => fillRow b

/-- A row whose three mutable cells are all present (no `NaN`), as
`load_data` guarantees for the reference frame via `fillna("")`. -/
def normalizedRow (r : Row) : Prop :=
  r.seenQ.isSome ∧ r.dateFirstSeen.isSome ∧ r.notes.isSome

instance (r : Row) : Decidable (normalizedRow r) := by
  unfold normalizedRow; infer_instance

/-- Python `str.lower()` restricted to what the app compares: ASCII
lowering, character by character. -/
def pyLower (s : String) : String :=
  String.mk (s.data.map Char.toLower)

/-- Python `str.strip()`: drop whitespace from both ends. -/
def pyStrip (s : String) : String :=
  String.mk (((s.data.dropWhile Char.isWhitespace).reverse.dropWhile Char.isWhitespace).reverse)

/-- A row of `df` after the per-row edit loop (lines 313-316) has
written all three mutable cells as plain strings: no `NaN` can remain. -/
structure EditedRow where
  species : String
  seenQ : String
  dateFirstSeen : String
  notes : String
  meta : String
  deriving DecidableEq

/-- Lines 301-316, the per-row edit step: the checkbox value gates the
date widget (`date_val = None` on the else branch of line 308-309), then
the three cells are overwritten with exactly the supplied values
(`"Yes" if seen_val else ""`, `date_val.isoformat() if date_val else ""`,
`notes_val`).  `dateOrNone` is the ISO text of the date widget. -/
def applyUserEdit (row : Row) (seenFlag : Bool) (dateOrNone : Option String)
    (notesText : String) : EditedRow :=
  { species := row.species
  , seenQ := if seenFlag then "Yes" else ""
  , dateFirstSeen :=
      match (if seenFlag then dateOrNone else none) with
      | some d => d
      | none => ""
  , notes := notesText
  , meta := row.meta }

/-- The record upserted to `bird_sightings` for one row (lines 329-336). -/
structure UpdateRecord where
  user_id : String
  species : String
  seen : Bool
  first_seen_date : Option String
  notes : String
  updated_at : String
  deriving DecidableEq

/-- Lines 328-336, the Save Sightings loop body, applied to every row of
`df` unconditionally.  Python `x or None` on a string is an emptiness
test (empty string is falsy), hence the date is `none` exactly when the
cell is `""`; `now` stands for `datetime.utcnow().isoformat()`. -/
def diffForPersist (user_id now : String) (rows : List EditedRow) : List UpdateRecord :=
  rows.map fun r =>
    { user_id := user_id
    , species := r.species
    , seen := pyLower (pyStrip r.seenQ) == "yes"
    , first_seen_date := if r.dateFirstSeen = "" then none else some r.dateFirstSeen
    , notes := if r.notes = "" then "" else r.notes
    , updated_at := now ++ "Z" }

/-- Lines 235-239, the `mark_all_seen` handler: `Seen?` becomes `"Yes"`,
`Date first seen` becomes today, and `Notes` only passes through
`fillna("")`. `today` stands for `date.today().isoformat()`. -/
def mark_all_handler (today : String) (rows : List Row) : List Row :=
  rows.map fun r =>
    { r with seenQ := some "Yes", dateFirstSeen := some today, notes := some (r.notes.getD "") }

/-- Lines 240-243, the `clear_all_seen` handler: all three mutable
columns are assigned the empty string. -/
def clear_all_handler (rows : List Row) : List Row :=
  rows.map fun r =>
    { r with seenQ := some "", dateFirstSeen := some "", notes := some "" }

/-- Re-expression of a merged row in the overlay shape, following the
spec of the round trip: `"Yes"`/`""` is mapped back to a boolean by
comparison with `"Yes"`, date and notes are carried over (a `NaN` cell
reads back as `""`). -/
def toOverlayEntry (r : Row) : StateEntry :=
  { species := r.species
  , seen := some (r.seenQ.getD "" == "Yes")
  , first_seen_date := some (r.dateFirstSeen.getD "")
  , notes := some (r.notes.getD "") }

/-- One application of the spec round trip: merge a view with its own
re-expression as an overlay. -/
def roundTrip (rows : List Row) : List Row :=
  merge_supabase_state rows (rows.map toOverlayEntry)

/-- A unified row respects the date/seen coupling when a non-empty date
cell only occurs together with `Seen? = "Yes"`. -/
def rowDateInv (r : Row) : Prop :=
  r.dateFirstSeen.getD "" ≠ "" → r.seenQ = some "Yes"

instance (r : Row) : Decidable (rowDateInv r) := by
  unfold rowDateInv; infer_instance

/-- An overlay entry respects the date/seen coupling when a non-empty
date sub-field only occurs together with a `seen` normalizing to `"Yes"`. -/
def entryDateInv (s : StateEntry) : Prop :=
  s.first_seen_date.getD "" ≠ "" → normSeen s.seen = "Yes"

instance (s : StateEntry) : Decidable (entryDateInv s) := by
  unfold entryDateInv; infer_instance

/-- An edited row respects the date/seen coupling. -/
def editedDateInv (r : EditedRow) : Prop :=
  r.dateFirstSeen ≠ "" → r.seenQ = "Yes"

instance (r : EditedRow) : Decidable (editedDateInv r) := by
  unfold editedDateInv; infer_instance

section helperLemmas

lemma normSeen_cases (o : Option Bool) : normSeen o = "Yes" ∨ normSeen o = "" := by
  cases o with
  | none => left; rfl
  | some b => cases b with
    | false => right; rfl
    | true => left; rfl

lemma filter_species_eq_find (x : String) (state : List StateEntry)
    (h : (state.map StateEntry.species).Nodup) :
    state.filter (fun s => s.species == x) = (state.find? fun s => s.species == x).toList := by
  induction state with
  | nil => rfl
  | cons a t ih =>
    rw [List.map_cons, List.nodup_cons] at h
    obtain ⟨ha, ht⟩ := h
    by_cases hc : a.species = x
    · have hb : (a.species == x) = true := by simpa using hc
      rw [List.filter_cons_of_pos (p := fun s : StateEntry => s.species == x) hb,
        List.find?_cons_of_pos (p := fun s : StateEntry => s.species == x) _ hb]
      have : t.filter (fun s => s.species == x) = [] := by
        refine List.filter_eq_nil_iff.mpr fun u hu => ?_
        have : u.species ≠ x := by
          intro hux
          apply ha
          have hax : a.species = u.species := by rw [hc, hux]
          rw [hax]
          exact List.mem_map_of_mem StateEntry.species hu
        simpa using this
      rw [this]
      rfl
    · have hb : (a.species == x) = false := by simpa using hc
      rw [List.filter_cons_of_neg (p := fun s : StateEntry => s.species == x) (by simp [hb]),
        List.find?_cons_of_neg (p := fun s : StateEntry => s.species == x) _ (by simp [hb])]
      exact ih ht

lemma find?_species_eq_of_mem (state : List StateEntry)
    (h : (state.map StateEntry.species).Nodup) (s : StateEntry) (hs : s ∈ state) :
    (state.find? fun t => t.species == s.species) = some s := by
  induction state with
  | nil => cases hs
  | cons a t ih =>
    rw [List.map_cons, List.nodup_cons] at h
    obtain ⟨ha, ht⟩ := h
    rcases List.mem_cons.mp hs with rfl | hmem
    · exact List.find?_cons_of_pos (p := fun t : StateEntry => t.species == s.species) _ (by simp)
    · have hne : (a.species == s.species) = false := by
        have : a.species ≠ s.species := by
          intro hax
          exact ha (hax ▸ List.mem_map_of_mem StateEntry.species hmem)
        simpa using this
      rw [List.find?_cons_of_neg (p := fun t : StateEntry => t.species == s.species) _ (by simp [hne])]
      exact ih ht hmem

lemma leftJoin_eq_map (state : List StateEntry)
    (h : (state.map StateEntry.species).Nodup) (csv : List Row) :
    leftJoin state csv = csv.map (mergeOne state) := by
  induction csv with
  | nil => rfl
  | cons b bs ih =>
    rw [leftJoin, filter_species_eq_find b.species state h]
    rw [List.map_cons, ih]
    cases hf : state.find? fun s => s.species == b.species with
    | none => simp [Option.toList, mergeOne, lookupEntry, hf]
    | some s => simp [Option.toList, mergeOne, lookupEntry, hf]

lemma merge_eq_map (csv : List Row) (state : List StateEntry)
    (h : (state.map StateEntry.species).Nodup) (hne : state ≠ []) :
    merge_supabase_state csv state = csv.map (mergeOne state) := by
  rw [merge_supabase_state, if_neg (by simpa using hne)]
  exact leftJoin_eq_map state h csv

lemma mergeOne_species (state : List StateEntry) (b : Row) :
    (mergeOne state b).species = b.species := by
  unfold mergeOne
  cases lookupEntry b.species state with
  | none => rfl
  | some s => rfl

lemma mergeOne_normalized (state : List StateEntry) (b : Row) :
    normalizedRow (mergeOne state b) := by
  unfold mergeOne
  cases lookupEntry b.species state with
  | none => exact ⟨rfl, rfl, rfl⟩
  | some s => exact ⟨rfl, rfl, rfl⟩

lemma merge_species_map (csv : List Row) (state : List StateEntry)
    (h : (state.map StateEntry.species).Nodup) :
    (merge_supabase_state csv state).map Row.species = csv.map Row.species := by
  rcases eq_or_ne state [] with rfl | hne
  · rfl
  · rw [merge_eq_map csv state h hne, List.map_map]
    exact List.map_congr_left fun b _ => mergeOne_species state b

lemma merge_normalized (csv : List Row) (state : List StateEntry)
    (hnorm : ∀ r ∈ csv, normalizedRow r) (h : (state.map StateEntry.species).Nodup) :
    ∀ r ∈ merge_supabase_state csv state, normalizedRow r := by
  rcases eq_or_ne state [] with rfl | hne
  · exact hnorm
  · rw [merge_eq_map csv state h hne]
    intro r hr
    obtain ⟨b, _, rfl⟩ := List.mem_map.mp hr
    exact mergeOne_normalized state b

lemma mergeRow_toOverlay (b : Row) (hb : normalizedRow b) :
    mergeRow b (toOverlayEntry b) = b := by
  obtain ⟨h1, h2, h3⟩ := hb
  obtain ⟨sp, so, do_, no, me⟩ := b
  obtain ⟨vs, rfl⟩ := Option.isSome_iff_exists.mp h1
  obtain ⟨vd, rfl⟩ := Option.isSome_iff_exists.mp h2
  obtain ⟨vn, rfl⟩ := Option.isSome_iff_exists.mp h3
  simp only [mergeRow, toOverlayEntry, Option.getD_some]
  refine Row.mk.injEq .. ▸ ⟨rfl, ?_, ?_, ?_, rfl⟩ <;> simp only [pick, normSeen]
  · by_cases hv : vs = "Yes"
    · simp [hv]
    · have : (vs == "Yes") = false := by simpa using hv
      simp [this]
  · by_cases hv : vd = "" <;> simp [hv]
  · by_cases hv : vn = "" <;> simp [hv]

lemma roundTrip_fixed_of (rows : List Row) (hn : ∀ r ∈ rows, normalizedRow r)
    (hk : (rows.map Row.species).Nodup) : roundTrip rows = rows := by
  rcases eq_or_ne rows [] with rfl | hne
  · rfl
  · have hmapne : rows.map toOverlayEntry ≠ [] := by
      simpa using hne
    have hkeys : ((rows.map toOverlayEntry).map StateEntry.species).Nodup := by
      rw [List.map_map]
      exact hk
    rw [roundTrip, merge_eq_map _ _ hkeys hmapne]
    have : ∀ b ∈ rows, mergeOne (rows.map toOverlayEntry) b = b := by
      intro b hb
      have hfind : ((rows.map toOverlayEntry).find? fun t => t.species == b.species)
          = some (toOverlayEntry b) :=
        find?_species_eq_of_mem (rows.map toOverlayEntry) hkeys (toOverlayEntry b)
          (List.mem_map_of_mem toOverlayEntry hb)
      rw [mergeOne, lookupEntry, hfind]
      exact mergeRow_toOverlay b (hn b hb)
    rw [List.map_congr_left this]
    simp

lemma fillRow_dateInv (b : Row) (hb : rowDateInv b) : rowDateInv (fillRow b) := by
  intro h
  simp only [fillRow, Option.getD_some] at h ⊢
  rw [hb h]
  rfl

lemma mergeRow_dateInv (b : Row) (s : StateEntry) (hb : rowDateInv b)
    (hs : entryDateInv s) : rowDateInv (mergeRow b s) := by
  intro h
  simp only [mergeRow, Option.getD_some] at h ⊢
  have hseen : pick (some (normSeen s.seen)) b.seenQ = "Yes" → True := fun _ => trivial
  cases hd : s.first_seen_date with
  | none =>
    rw [hd] at h
    simp only [pick] at h
    have hby : b.seenQ = some "Yes" := hb h
    rcases normSeen_cases s.seen with hns | hns <;> simp [pick, hns, hby]
  | some v =>
    rw [hd] at h
    by_cases hv : v = ""
    · subst hv
      simp only [pick, if_pos rfl] at h
      have hby : b.seenQ = some "Yes" := hb h
      rcases normSeen_cases s.seen with hns | hns <;> simp [pick, hns, hby]
    · have : normSeen s.seen = "Yes" := hs (by rw [hd]; simpa using hv)
      simp [pick, this]

lemma mem_leftJoin (state : List StateEntry) (csv : List Row) (r : Row)
    (hr : r ∈ leftJoin state csv) :
    ∃ b ∈ csv, r = fillRow b ∨ ∃ s ∈ state, r = mergeRow b s := by
  induction csv with
  | nil => cases hr
  | cons b bs ih =>
    rw [leftJoin] at hr
    rcases List.mem_append.mp hr with hl | hrec
    · refine ⟨b, List.mem_cons_self b bs, ?_⟩
      by_cases hms : (state.filter fun s => s.species == b.species).isEmpty
      · rw [if_pos hms] at hl
        left
        simpa using hl
      · rw [if_neg hms] at hl
        obtain ⟨s, hsmem, rfl⟩ := List.mem_map.mp hl
        exact Or.inr ⟨s, List.mem_of_mem_filter hsmem, rfl⟩
    · obtain ⟨b2, hb2, hor⟩ := ih hrec
      exact ⟨b2, List.mem_cons_of_mem b hb2, hor⟩

end helperLemmas

/-- C3: for every reference sequence R, merging R with an empty overlay
returns R itself, rows and mutable fields unchanged and in the same
order (lines 204-205 return `csv_df.copy()`). -/
theorem merge_empty_overlay_id (csv : List Row) : merge_supabase_state csv [] = csv := rfl

/-- C4: the per-row edit step with the seen checkbox off stores an empty
date regardless of the supplied date (and an empty `Seen?`, with the
notes text stored as given); with the checkbox on, the supplied seen,
date and notes values exactly replace the prior cells of the row. -/
theorem applyUserEdit_spec : ∀ (row : Row) (d : Option String) (n : String),
    (applyUserEdit row false d n).dateFirstSeen = ""
    ∧ (applyUserEdit row false d n).seenQ = ""
    ∧ (applyUserEdit row false d n).notes = n
    ∧ ∀ dd : String, applyUserEdit row true (some dd) n =
        { species := row.species, seenQ := "Yes", dateFirstSeen := dd
        , notes := n, meta := row.meta } :=
  fun _ _ _ => ⟨rfl, rfl, rfl, fun _ => rfl⟩

/-- C1: for a reference row and an overlay entry joined on the species
key, each mutable field is taken from the overlay exactly when the
overlay value for that field is present and non-empty (seen being first
normalized to "Yes"/""), and the reference value is kept otherwise; in
particular an overlay seen of `false` never overrides the reference
cell. -/
theorem merge_field_precedence (csv : List Row) (state : List StateEntry) (b : Row)
    (s : StateEntry) (i : Nat) (hnd : (state.map StateEntry.species).Nodup)
    (hb : csv[i]? = some b) (hs : s ∈ state) (hkey : s.species = b.species) :
    (merge_supabase_state csv state)[i]? = some (mergeRow b s)
    ∧ (mergeRow b s).seenQ =
        some (if normSeen s.seen = "" then b.seenQ.getD "" else normSeen s.seen)
    ∧ (mergeRow b s).dateFirstSeen =
        some (match s.first_seen_date with
          | some v => if v = "" then b.dateFirstSeen.getD "" else v
          | none => b.dateFirstSeen.getD "")
    ∧ (mergeRow b s).notes =
        some (match s.notes with
          | some v => if v = "" then b.notes.getD "" else v
          | none => b.notes.getD "")
    ∧ (s.seen = some false → (mergeRow b s).seenQ = some (b.seenQ.getD "")) := by
  have hne : state ≠ [] := by rintro rfl; cases hs
  refine ⟨?_, ?_, ?_, ?_, ?_⟩
  · rw [merge_eq_map csv state hnd hne, List.getElem?_map, hb, Option.map_some']
    have hfind : lookupEntry b.species state = some s := by
      rw [lookupEntry, ← hkey]
      exact find?_species_eq_of_mem state hnd s hs
    simp only [mergeOne, hfind]
  · rcases normSeen_cases s.seen with h | h <;> simp [mergeRow, pick, h]
  · cases hd : s.first_seen_date <;> simp [mergeRow, pick, hd]
  · cases hd : s.notes <;> simp [mergeRow, pick, hd]
  · intro h; simp [mergeRow, pick, normSeen, h]

/-- C1 witness at a concrete reference row and overlay entry. -/
theorem merge_field_precedence_witness :
    (merge_supabase_state
        [{ species := "X", seenQ := some "Yes", dateFirstSeen := some "", notes := some "k", meta := "m" }]
        [{ species := "X", seen := some false, first_seen_date := some "", notes := some "n2" }])[0]?
      = some (mergeRow
        { species := "X", seenQ := some "Yes", dateFirstSeen := some "", notes := some "k", meta := "m" }
        { species := "X", seen := some false, first_seen_date := some "", notes := some "n2" }) :=
  (merge_field_precedence _ _ _ _ 0 (by decide) (by decide) (by decide) (by decide)).1

/-- C2: the merged view has exactly the rows of the reference, in
reference order and with the reference species keys (so unmatched
overlay entries contribute no row), and every merged row carries a
concrete value in all three mutable cells. -/
theorem merge_shape (csv : List Row) (state : List StateEntry)
    (hnorm : ∀ r ∈ csv, normalizedRow r)
    (hnd : (state.map StateEntry.species).Nodup) :
    (merge_supabase_state csv state).length = csv.length
    ∧ (merge_supabase_state csv state).map Row.species = csv.map Row.species
    ∧ ∀ r ∈ merge_supabase_state csv state, normalizedRow r := by
  refine ⟨?_, merge_species_map csv state hnd, merge_normalized csv state hnorm hnd⟩
  have h := congrArg List.length (merge_species_map csv state hnd)
  simpa using h

/-- C2 witness at a concrete reference and overlay, with an unmatched
overlay species. -/
theorem merge_shape_witness :
    (merge_supabase_state
        [{ species := "A", seenQ := some "", dateFirstSeen := some "", notes := some "", meta := "" }]
        [{ species := "A", seen := some true, first_seen_date := some "2024-05-01", notes := some "" }
        , { species := "GONE", seen := some true, first_seen_date := some "", notes := some "" }]).length = 1 :=
  (merge_shape _ _ (by decide) (by decide)).1

/-- C5: the Save Sightings loop emits exactly one record per row,
unconditionally; a record carries a null date exactly when the row date
cell is empty, never the empty string; and under the date/seen coupling
the rows satisfy at that point, every record with `seen = false` has a
null date. -/
theorem diffForPersist_spec (uid now : String) (rows : List EditedRow)
    (hinv : ∀ r ∈ rows, editedDateInv r) :
    (diffForPersist uid now rows).length = rows.length
    ∧ (∀ (i : Nat) (r : EditedRow), rows[i]? = some r →
        ∃ rec : UpdateRecord, (diffForPersist uid now rows)[i]? = some rec
        ∧ (rec.first_seen_date = none ↔ r.dateFirstSeen = "")
        ∧ rec.species = r.species)
    ∧ (∀ rec ∈ diffForPersist uid now rows, rec.first_seen_date ≠ some "")
    ∧ (∀ rec ∈ diffForPersist uid now rows, rec.seen = false → rec.first_seen_date = none) := by
  refine ⟨by simp [diffForPersist], ?_, ?_, ?_⟩
  · intro i r hr
    refine ⟨_, by rw [diffForPersist, List.getElem?_map, hr, Option.map_some'], ?_, rfl⟩
    by_cases hd : r.dateFirstSeen = "" <;> simp [hd]
  · intro rec hrec
    obtain ⟨r, _, rfl⟩ := List.mem_map.mp hrec
    by_cases hd : r.dateFirstSeen = "" <;> simp [hd]
  · intro rec hrec hseen
    obtain ⟨r, hr, rfl⟩ := List.mem_map.mp hrec
    simp only at hseen ⊢
    by_cases hd : r.dateFirstSeen = ""
    · simp [hd]
    · exfalso
      have hyes : r.seenQ = "Yes" := hinv r hr hd
      rw [hyes] at hseen
      have : pyLower (pyStrip "Yes") = "yes" := by decide
      rw [this] at hseen
      simp at hseen

/-- C5 witness at a concrete edited view. -/
theorem diffForPersist_spec_witness :
    (diffForPersist "user-1" "2025-06-01T00:00:00"
        [{ species := "A", seenQ := "Yes", dateFirstSeen := "2024-05-01", notes := "n", meta := "" }
        , { species := "B", seenQ := "", dateFirstSeen := "", notes := "", meta := "" }]).length = 2 :=
  (diffForPersist_spec "user-1" "2025-06-01T00:00:00" _ (by decide)).1

/-- C6 counterexample: an overlay entry with `seen = false` and a
non-empty date, merged over a reference row with empty cells, yields a
unified row whose date is populated while seen is not "Yes", so the
claimed invariant fails on merge output. -/
theorem date_without_seen_cex :
    merge_supabase_state
        [{ species := "Y", seenQ := some "", dateFirstSeen := some "", notes := some "", meta := "" }]
        [{ species := "Y", seen := some false, first_seen_date := some "2023-05-01", notes := some "" }]
      = [{ species := "Y", seenQ := some "", dateFirstSeen := some "2023-05-01", notes := some "", meta := "" }]
    ∧ ¬ rowDateInv { species := "Y", seenQ := some "", dateFirstSeen := some "2023-05-01", notes := some "", meta := "" } :=
  ⟨by decide, by decide⟩

/-- C6 amended: the per-row edit step always establishes the coupling
(non-empty date only with `Seen? = "Yes"`), and the merge preserves it
provided both the reference rows and the overlay entries satisfy it; an
overlay entry pairing `seen = false` with a non-empty date (or such a
reference row) propagates the violation into the unified view. -/
theorem date_without_seen_amended :
    (∀ (row : Row) (f : Bool) (d : Option String) (n : String),
      editedDateInv (applyUserEdit row f d n))
    ∧ (∀ (csv : List Row) (state : List StateEntry),
        (∀ b ∈ csv, rowDateInv b) → (∀ s ∈ state, entryDateInv s) →
        ∀ r ∈ merge_supabase_state csv state, rowDateInv r) := by
  constructor
  · intro row f d n
    cases f with
    | false => intro h; cases h rfl
    | true => intro _; rfl
  · intro csv state hb hs r hr
    rcases eq_or_ne state [] with rfl | hne
    · exact hb r hr
    · rw [merge_supabase_state, if_neg (by simpa using hne)] at hr
      obtain ⟨b, hbm, hor⟩ := mem_leftJoin state csv r hr
      rcases hor with rfl | ⟨s, hsm, rfl⟩
      · exact fillRow_dateInv b (hb b hbm)
      · exact mergeRow_dateInv b s (hb b hbm) (hs s hsm)

/-- C6 amended witness: the coupling holds on a concrete merged row. -/
theorem date_without_seen_amended_witness :
    rowDateInv { species := "X", seenQ := some "Yes", dateFirstSeen := some "2024-03-01"
               , notes := some "n", meta := "" } :=
  date_without_seen_amended.2
    [{ species := "X", seenQ := some "", dateFirstSeen := some "", notes := some "", meta := "" }]
    [{ species := "X", seen := some true, first_seen_date := some "2024-03-01", notes := some "n" }]
    (by decide) (by decide) _ (by decide)

/-- C7: the merged view is a fixed point of re-merging with its own
re-expression as an overlay ("Yes"/"" mapped back to a boolean), for
reference frames with concrete mutable cells and duplicate-free keys on
both sides of the join. -/
theorem merge_roundtrip_fixed (csv : List Row) (state : List StateEntry)
    (hnorm : ∀ r ∈ csv, normalizedRow r)
    (hc : (csv.map Row.species).Nodup) (hs : (state.map StateEntry.species).Nodup) :
    roundTrip (merge_supabase_state csv state) = merge_supabase_state csv state := by
  apply roundTrip_fixed_of
  · exact merge_normalized csv state hnorm hs
  · rw [merge_species_map csv state hs]
    exact hc

/-- C7 witness at a concrete reference and overlay. -/
theorem merge_roundtrip_fixed_witness :
    roundTrip (merge_supabase_state
        [{ species := "A", seenQ := some "Yes", dateFirstSeen := some "2023-05-01", notes := some "", meta := "m" }
        , { species := "B", seenQ := some "", dateFirstSeen := some "", notes := some "x", meta := "" }]
        [{ species := "B", seen := some true, first_seen_date := some "2024-01-01", notes := some "" }])
      = merge_supabase_state
        [{ species := "A", seenQ := some "Yes", dateFirstSeen := some "2023-05-01", notes := some "", meta := "m" }
        , { species := "B", seenQ := some "", dateFirstSeen := some "", notes := some "x", meta := "" }]
        [{ species := "B", seen := some true, first_seen_date := some "2024-01-01", notes := some "" }] :=
  merge_roundtrip_fixed _ _ (by decide) (by decide) (by decide)

/-- C8 counterexample: an overlay entry whose `seen` sub-field is
missing (a NaN cell) is not treated as "no overlay value": Python
`bool(nan)` is `True`, so the merge stores "Yes" where the claim
requires the reference value "" to be kept. -/
theorem merge_malformed_cex :
    merge_supabase_state
        [{ species := "X", seenQ := some "", dateFirstSeen := some "", notes := some "", meta := "" }]
        [{ species := "X", seen := none, first_seen_date := none, notes := none }]
      = [{ species := "X", seenQ := some "Yes", dateFirstSeen := some "", notes := some "", meta := "" }]
    ∧ (some "Yes" : Option String) ≠ some "" :=
  ⟨by decide, by decide⟩

/-- C8 amended: the merge is a total function of its row-level inputs,
and a missing date or notes sub-field degrades to the reference value;
but a missing `seen` sub-field is truthy under Python `bool()` and is
normalized to "Yes", overriding the reference cell. -/
theorem merge_malformed_amended : ∀ (b : Row) (s : StateEntry),
    (s.first_seen_date = none → (mergeRow b s).dateFirstSeen = some (b.dateFirstSeen.getD ""))
    ∧ (s.notes = none → (mergeRow b s).notes = some (b.notes.getD ""))
    ∧ (s.seen = none → (mergeRow b s).seenQ = some "Yes") :=
  fun b s =>
    ⟨fun h => by simp [mergeRow, pick, h]
    , fun h => by simp [mergeRow, pick, h]
    , fun h => by simp [mergeRow, pick, normSeen, h]⟩

/-- C8 amended witness at a concrete row and fully missing entry. -/
theorem merge_malformed_amended_witness :
    (mergeRow { species := "X", seenQ := some "", dateFirstSeen := some "d", notes := none, meta := "" }
        { species := "X", seen := none, first_seen_date := none, notes := none }).dateFirstSeen = some "d"
    ∧ (mergeRow { species := "X", seenQ := some "", dateFirstSeen := some "d", notes := none, meta := "" }
        { species := "X", seen := none, first_seen_date := none, notes := none }).notes = some ""
    ∧ (mergeRow { species := "X", seenQ := some "", dateFirstSeen := some "d", notes := none, meta := "" }
        { species := "X", seen := none, first_seen_date := none, notes := none }).seenQ = some "Yes" :=
  ⟨(merge_malformed_amended _ _).1 rfl
  , (merge_malformed_amended _ _).2.1 rfl
  , (merge_malformed_amended _ _).2.2 rfl⟩

/-- C9: the bulk clear action leaves the species column untouched and
sets all three mutable cells, notes included, to the empty string on
every row. -/
theorem clear_all_wipes (rows : List Row) :
    (clear_all_handler rows).map Row.species = rows.map Row.species
    ∧ ∀ r ∈ clear_all_handler rows,
        r.seenQ = some "" ∧ r.dateFirstSeen = some "" ∧ r.notes = some "" := by
  constructor
  · rw [clear_all_handler, List.map_map]
    rfl
  · intro r hr
    obtain ⟨b, _, rfl⟩ := List.mem_map.mp hr
    exact ⟨rfl, rfl, rfl⟩

/-- C9 witness on a concrete row. -/
theorem clear_all_wipes_witness :
    ({ species := "X", seenQ := some "", dateFirstSeen := some "", notes := some "", meta := "m" } : Row).seenQ = some ""
    ∧ ({ species := "X", seenQ := some "", dateFirstSeen := some "", notes := some "", meta := "m" } : Row).dateFirstSeen = some ""
    ∧ ({ species := "X", seenQ := some "", dateFirstSeen := some "", notes := some "", meta := "m" } : Row).notes = some "" :=
  (clear_all_wipes
      [{ species := "X", seenQ := some "Yes", dateFirstSeen := some "2024-01-01", notes := some "hi", meta := "m" }]).2
    _ (by decide)

/-- C10: the bulk mark-all action sets `Seen?` to "Yes" and the date to
today on every row, and, on a view whose notes cells are concrete (as
`load_data` and the merge guarantee), leaves every notes cell unchanged. -/
theorem mark_all_frame (today : String) (rows : List Row)
    (h : ∀ r ∈ rows, r.notes.isSome) :
    (mark_all_handler today rows).map Row.species = rows.map Row.species
    ∧ (∀ r ∈ mark_all_handler today rows, r.seenQ = some "Yes" ∧ r.dateFirstSeen = some today)
    ∧ (mark_all_handler today rows).map Row.notes = rows.map Row.notes := by
  refine ⟨?_, ?_, ?_⟩
  · rw [mark_all_handler, List.map_map]
    rfl
  · intro r hr
    obtain ⟨b, _, rfl⟩ := List.mem_map.mp hr
    exact ⟨rfl, rfl⟩
  · rw [mark_all_handler, List.map_map]
    refine List.map_congr_left fun b hb => ?_
    obtain ⟨v, hv⟩ := Option.isSome_iff_exists.mp (h b hb)
    simp [Function.comp, hv]

/-- C10 witness on a concrete view. -/
theorem mark_all_frame_witness :
    (mark_all_handler "2025-01-01"
        [{ species := "A", seenQ := some "", dateFirstSeen := some "", notes := some "keep", meta := "" }]).map Row.notes
      = ([{ species := "A", seenQ := some "", dateFirstSeen := some "", notes := some "keep", meta := "" }] : List Row).map Row.notes :=
  (mark_all_frame "2025-01-01" _ (by decide)).2.2

